import Mathlib

/-!
Verification of the DDSE TDR validator (`tools/tdr_validator.py`).

The validator is embedded shallowly: every function of the class
`TDRValidator` is translated into an executable Lean definition operating on
explicit data.  Two calls into external libraries are modelled as oracle
parameters collected in the structure `Ext`:

* `yaml.safe_load` (an external YAML decoder) is `Ext.decode`, mapping the
  extracted header text to either a decode error or a decoded value
  (a mapping, or `none` for a falsy result such as an empty document);
* `datetime.fromisoformat(str(v))` succeeding is `Ext.dateOk`.

File-system effects are made explicit: reading a file yields a `ReadOutcome`
(not found / bad encoding / content), and a directory listing is a
`DirOutcome`.  A Python exception escaping a function is modelled by
`Except String`: `.error` is an uncaught exception, `.ok` a normal return.
-/

namespace TDRValidator

/-- Decoded YAML scalar and container values, as produced by the external
YAML decoder (Python objects).  Python `bool` is a subclass of `int`; the
embedding keeps them separate constructors and records the subclass fact
where the source relies on `isinstance(v, int)`. -/
inductive YVal where
  | str (s : String)
  | int (n : Int)
  | bool (b : Bool)
  | null
  | list (l : List YVal)
  | dict (d : List (String × YVal))

/-- A decoded frontmatter mapping (a Python dict of string keys). -/
abbrev Fm := List (String × YVal)

/-- Outcome of `yaml.safe_load` on the extracted header text:
a `yaml.YAMLError`, or a decoded value (`none` models a falsy decode result
such as `None` from an empty document; `some []` models an empty dict). -/
inductive DecodeOutcome where
  | yamlError (msg : String)
  | value (v : Option Fm)

/-- Oracles for the two external library calls made by the validator. -/
structure Ext where
  decode : String → DecodeOutcome
  dateOk : YVal → Bool

/-- Outcome of `open(file_path).read()`. -/
inductive ReadOutcome where
  | notFound
  | badEncoding
  | content (s : String)

/-- Outcome of listing `*.md` files of a directory: the directory does not
exist, or it holds the given (name, readable content) pairs. -/
inductive DirOutcome where
  | notDir
  | mdFiles (files : List (String × ReadOutcome))

/-! ### Python string primitives, structurally (so they evaluate by `rfl`) -/

/-- Python whitespace class used by `str.strip` and the regex class `\s`
(ASCII part). -/
def isPySpace (c : Char) : Bool :=
  c == ' ' || c == '\t' || c == '\n' || c == '\r' || c == '\x0b' || c == '\x0c'

def pyStripList (l : List Char) : List Char :=
  ((l.dropWhile isPySpace).reverse.dropWhile isPySpace).reverse

/-- Python `str.strip()`. -/
def pyStrip (s : String) : String := String.mk (pyStripList s.data)

/-- Python `str.upper()` (ASCII). -/
def pyStrUpper (s : String) : String := String.mk (s.data.map Char.toUpper)

/-- Python `str.lower()` (ASCII). -/
def pyStrLower (s : String) : String := String.mk (s.data.map Char.toLower)

/-- Python `content.split('\n')`. -/
def splitNlAux : List Char → List Char → List String
  | [], acc => [String.mk acc.reverse]
  | c :: cs, acc =>
    if c == '\n' then String.mk acc.reverse :: splitNlAux cs []
    else splitNlAux cs (c :: acc)

def pySplitNl (s : String) : List String := splitNlAux s.data []

/-- Python `content.find(pat, start)` restricted to a scan that begins at
absolute index `i` over the remaining characters; returns the absolute index
of the first occurrence. -/
def subFindAux (pat : List Char) : List Char → Nat → Option Nat
  | [], _ => none
  | c :: cs, i =>
    if pat.isPrefixOf (c :: cs) then some i else subFindAux pat cs (i + 1)

/-! ### Python value helpers -/

mutual
/-- Python `repr` of a decoded YAML value. -/
def pyRepr : YVal → String
  | .str s => "\x27" ++ s ++ "\x27"
  | .int n => toString n
  | .bool b => if b then "True" else "False"
  | .null => "None"
  | .list l => "[" ++ pyReprList l ++ "]"
  | .dict d => "\x7b" ++ pyReprDict d ++ "\x7d"

def pyReprList : List YVal → String
  | [] => ""
  | [v] => pyRepr v
  | v :: vs => pyRepr v ++ ", " ++ pyReprList vs

def pyReprDict : List (String × YVal) → String
  | [] => ""
  | [(k, v)] => "\x27" ++ k ++ "\x27: " ++ pyRepr v
  | (k, v) :: kvs => "\x27" ++ k ++ "\x27: " ++ pyRepr v ++ ", " ++ pyReprDict kvs
end

/-- Python `str(v)` for a decoded YAML value. -/
def pyStr : YVal → String
  | .str s => s
  | v => pyRepr v

mutual
/-- Python `==` on decoded YAML values (between values of the shapes the
decoder produces). -/
def yvalBeq : YVal → YVal → Bool
  | .str a, .str b => a == b
  | .int a, .int b => a == b
  | .bool a, .bool b => a == b
  | .null, .null => true
  | .list a, .list b => yvalListBeq a b
  | .dict a, .dict b => yvalDictBeq a b
  | _, _ => false

def yvalListBeq : List YVal → List YVal → Bool
  | [], [] => true
  | x :: xs, y :: ys => yvalBeq x y && yvalListBeq xs ys
  | _, _ => false

def yvalDictBeq : List (String × YVal) → List (String × YVal) → Bool
  | [], [] => true
  | (ka, va) :: xs, (kb, vb) :: ys => ka == kb && yvalBeq va vb && yvalDictBeq xs ys
  | _, _ => false
end

/-- Python `isinstance(v, (int, str))`; `bool` is a subclass of `int`. -/
def isIntOrStr : YVal → Bool
  | .int _ => true
  | .bool _ => true
  | .str _ => true
  | _ => false

/-! ### Schema registry (`TDR_TYPES`, `VALID_STATUSES`) -/

structure TdrConfig where
  name : String
  required_sections : List String
  optional_sections : List String

def TDR_TYPES : List (String × TdrConfig) :=
  [ ("MDD",
     { name := "Major Design Decision"
       required_sections := ["Status", "Context", "Decision", "Rationale",
         "Consequences", "Implementation", "Alternatives Considered"]
       optional_sections := ["Assumptions", "Constraints", "Risks", "Timeline",
         "Success Metrics", "Review Schedule"] })
  , ("ADR",
     { name := "Architectural Decision Record"
       required_sections := ["Status", "Context", "Decision", "Consequences"]
       optional_sections := ["Rationale", "Alternatives Considered", "Implementation",
         "Assumptions", "Constraints", "Related Decisions"] })
  , ("EDR",
     { name := "Engineering Decision Record"
       required_sections := ["Status", "Context", "Decision", "Implementation"]
       optional_sections := ["Rationale", "Consequences", "Alternatives Considered",
         "Technical Details", "Testing Approach", "Performance Impact"] })
  , ("IDR",
     { name := "Implementation Decision Record"
       required_sections := ["Status", "Context", "Decision", "Implementation"]
       optional_sections := ["Rationale", "Code Examples", "Testing Notes",
         "Performance Notes", "Dependencies", "Rollback Plan"] })
  , ("TDM",
     { name := "Technical Decision Memo"
       required_sections := ["Context", "Decision", "Rationale"]
       optional_sections := ["Implementation", "Consequences", "Next Steps",
         "Follow-up Required", "Related Work"] }) ]

/-- Membership / lookup in the `TDR_TYPES` dict. -/
def tdrTypesLookup (k : String) : Option TdrConfig := TDR_TYPES.lookup k

def VALID_STATUSES : List String :=
  ["proposed", "accepted", "rejected", "superseded",
   "deprecated", "under-review", "implemented"]

/-! ### Frontmatter extraction (`_parse_frontmatter`) -/

/-- The delimiter-scanning part of `_parse_frontmatter`: requires the content
to start with `---` + newline, then looks for the first occurrence of
newline + `---` + newline at character index ≥ 4.  Returns the header text
`content[4:end_marker]` and the body `content[end_marker+5:]`. -/
def parseRaw (content : String) : Option (String × String) :=
  let cs := content.data
  if ("---\n".data).isPrefixOf cs then
    match subFindAux ("\n---\n".data) (cs.drop 4) 4 with
    | none => none
    | some end_marker =>
        some (String.mk ((cs.drop 4).take (end_marker - 4)),
              String.mk (cs.drop (end_marker + 5)))
  else none

/-- `_parse_frontmatter`: returns (frontmatter-or-None, remaining markdown,
errors appended to `self.errors`). -/
def parse_frontmatter (ext : Ext) (content : String) :
    Option Fm × String × List String :=
  match parseRaw content with
  | none => (none, content, [])
  | some (yaml_content, markdown_content) =>
    match ext.decode yaml_content with
    | .yamlError e => (none, content, ["Invalid YAML frontmatter: " ++ e])
    | .value v => (v, markdown_content, [])

/-! ### Section segmentation (`_parse_sections`) -/

/-- The regex `^(#{2,3})\s+(.+)$` applied to one line, returning
`group(2).strip()` on a match.  A line matches exactly when its leading run
of `#` has length 2 or 3 and is followed by a whitespace character and at
least one further character. -/
def headerName (line : String) : Option String :=
  let cs := line.data
  let k := (cs.takeWhile (· == '#')).length
  let rest := cs.drop k
  if (k == 2 || k == 3) && decide (2 ≤ rest.length) &&
      (match rest with | r :: _ => isPySpace r | [] => false) then
    some (String.mk (pyStripList rest))
  else none

/-- Python dict assignment `d[k] = v`: replaces the value in place if the key
exists, otherwise appends. -/
def dictInsert (l : List (String × String)) (k v : String) :
    List (String × String) :=
  match l with
  | [] => [(k, v)]
  | (a, b) :: rest =>
    if a == k then (a, v) :: rest else (a, b) :: dictInsert rest k v

/-- Loop state of `_parse_sections`: current section name, accumulated lines,
sections collected so far. -/
structure SecState where
  current : Option String
  acc : List String
  secs : List (String × String)

/-- Both on a new heading and at the end of the loop, the pending section (if
any) is saved: `sections[current_section] = '\n'.join(current_content).strip()`. -/
def saveCurrent (st : SecState) : List (String × String) :=
  match st.current with
  | some cur => dictInsert st.secs cur (pyStrip (String.intercalate "\n" st.acc))
  | none => st.secs

def secStep (st : SecState) (line : String) : SecState :=
  match headerName line with
  | some name => ⟨some name, [], saveCurrent st⟩
  | none =>
    match st.current with
    | some _ => ⟨st.current, st.acc ++ [line], st.secs⟩
    | none => st

def secFinish (st : SecState) : List (String × String) := saveCurrent st

/-- `_parse_sections`: split the body into lines, collect `##`/`###` headed
sections, joining and stripping each section body. -/
def parse_sections (content : String) : List (String × String) :=
  secFinish ((pySplitNl content).foldl secStep ⟨none, [], []⟩)

/-! ### Field validation (`_validate_frontmatter`) -/

def required_fields : List String :=
  ["type", "title", "status", "date", "decision_owner"]

def missingFieldErrors (fm : Fm) : List String :=
  required_fields.filterMap fun f =>
    if (fm.lookup f).isSome then none
    else some ("Missing required frontmatter field: " ++ f)

/-- The TDR-type check: `frontmatter['type'].upper()` raises AttributeError
on a non-string value (modelled by `.error`). -/
def typeCheck (fm : Fm) : Except String (List String) :=
  match fm.lookup "type" with
  | none => .ok []
  | some (YVal.str s) =>
    .ok (if (tdrTypesLookup (pyStrUpper s)).isSome then []
      else ["Invalid TDR type: " ++ s ++ ". Valid types: " ++
        String.intercalate ", " (TDR_TYPES.map Prod.fst)])
  | some _ => .error "AttributeError: upper"

/-- The status check: `frontmatter['status'].lower()` raises AttributeError
on a non-string value. -/
def statusCheck (fm : Fm) : Except String (List String) :=
  match fm.lookup "status" with
  | none => .ok []
  | some (YVal.str s) =>
    .ok (if VALID_STATUSES.contains (pyStrLower s) then []
      else ["Invalid status: " ++ s ++ ". Valid statuses: " ++
        String.intercalate ", " VALID_STATUSES])
  | some _ => .error "AttributeError: lower"

def dateCheck (ext : Ext) (fm : Fm) : List String :=
  match fm.lookup "date" with
  | none => []
  | some v =>
    if ext.dateOk v then []
    else ["Invalid date format: " ++ pyStr v ++
      ". Use ISO format: YYYY-MM-DD or YYYY-MM-DDTHH:MM:SS"]

def ownerCheck (fm : Fm) : List String :=
  match fm.lookup "decision_owner" with
  | none => []
  | some (YVal.str s) =>
    if pyStrip s == "" then ["decision_owner cannot be empty"] else []
  | some _ => ["decision_owner must be a string"]

/-- The optional-field shape check for `tdr_id` / `supersedes`: only values
that are neither `int` (incl. `bool`) nor `str` are converted; `str(v)` (for
`tdr_id`) never raises, while `int(v)` raises TypeError on every remaining
decoded shape (list, dict, None), producing the warning. -/
def fieldShapeWarn (fm : Fm) (field : String) : List String :=
  match fm.lookup field with
  | none => []
  | some v =>
    if isIntOrStr v then []
    else if field == "tdr_id" then []
    else ["Field \x27" ++ field ++ "\x27 should be numeric or string"]

def reviewersCheck (fm : Fm) : List String :=
  match fm.lookup "reviewers" with
  | none => []
  | some (YVal.list _) => []
  | some _ => ["reviewers should be a list"]

/-- `_validate_frontmatter`: returns the (errors, warnings) it appends, or an
uncaught AttributeError from the type/status case. -/
def validate_frontmatter (ext : Ext) (fm : Fm) :
    Except String (List String × List String) :=
  match typeCheck fm with
  | .error e => .error e
  | .ok typeErrs =>
    match statusCheck fm with
    | .error e => .error e
    | .ok statusErrs =>
      .ok (missingFieldErrors fm ++ typeErrs ++ statusErrs ++
             dateCheck ext fm ++ ownerCheck fm,
           fieldShapeWarn fm "tdr_id" ++ fieldShapeWarn fm "supersedes" ++
             reviewersCheck fm)

/-! ### Section validation (`_validate_sections`) -/

def sectionRequiredErrors : List String → List (String × String) → List String
  | [], _ => []
  | name :: rest, sections =>
    (match sections.lookup name with
     | none => ["Missing required section: " ++ name]
     | some c =>
       if pyStrip c == "" then ["Required section is empty: " ++ name] else [])
    ++ sectionRequiredErrors rest sections

def strictSectionWarns (ts : String) (cfg : TdrConfig)
    (sections : List (String × String)) : List String :=
  (sections.map Prod.fst).filterMap fun name =>
    if (cfg.required_sections ++ cfg.optional_sections).contains name then none
    else some ("Unknown section for " ++ ts ++ ": " ++ name)

/-- `_validate_sections`: upper-cases the declared type (AttributeError on a
non-string), silently returns on an unknown type, otherwise checks required
sections and, in strict mode, warns on unknown sections. -/
def validate_sections (strict_mode : Bool) (tdr_type : YVal)
    (sections : List (String × String)) :
    Except String (List String × List String) :=
  match tdr_type with
  | .str s =>
    let ts := pyStrUpper s
    match tdrTypesLookup ts with
    | none => .ok ([], [])
    | some cfg =>
      .ok (sectionRequiredErrors cfg.required_sections sections,
           if strict_mode then strictSectionWarns ts cfg sections else [])
  | _ => .error "AttributeError: upper"

/-! ### Cross-reference scanning (`_validate_cross_references`) -/

/-- The regex word class `\w` (ASCII part), used for `\b` boundaries. -/
def isWordChar (c : Char) : Bool := c.isAlphanum || c == '_'

/-- One attempt of the regex `\b([A-Z]{3})-(\d+)\b` at the start of `cs`,
where `prevW` says whether the preceding character was a word character.
Matches three uppercase letters, a hyphen and a maximal nonempty digit run,
requiring a non-word character (or the end) on both sides; returns the two
capture groups and the rest of the input after the match. -/
def refTry (prevW : Bool) (cs : List Char) :
    Option (String × String × List Char) :=
  match cs with
  | a :: b :: c :: '-' :: rest =>
    if prevW || !(a.isUpper && b.isUpper && c.isUpper) then none
    else if (rest.takeWhile Char.isDigit).isEmpty then none
    else
      match rest.dropWhile Char.isDigit with
      | [] => some (String.mk [a, b, c], String.mk (rest.takeWhile Char.isDigit), [])
      | r :: _ =>
        if isWordChar r then none
        else some (String.mk [a, b, c], String.mk (rest.takeWhile Char.isDigit),
          rest.dropWhile Char.isDigit)
  | _ => none

/-- The scan of `re.findall`: try a match at every position, emitting matches
left to right without overlap.  `fuel` bounds the recursion; every step
consumes at least one character, so `fuel = length` is always enough. -/
def refsAux : Nat → Bool → List Char → List (String × String)
  | 0, _, _ => []
  | _ + 1, _, [] => []
  | fuel + 1, prevW, c :: cs =>
    match refTry prevW (c :: cs) with
    | some (t, d, rest) => (t, d) :: refsAux fuel true rest
    | none => refsAux fuel (isWordChar c) cs

/-- `re.findall(r'\b([A-Z]{3})-(\d+)\b', content)`. -/
def findRefs (content : String) : List (String × String) :=
  refsAux content.data.length false content.data

/-- The warning text for a reference with an unknown type code. -/
def refMsg (t i : String) : String :=
  "Reference to unknown TDR type: " ++ t ++ "-" ++ i

/-- The loop body of `_validate_cross_references`: a reference with a known
code yields nothing, an unknown code yields its warning. -/
def refWarnFn (r : String × String) : Option String :=
  if (tdrTypesLookup r.1).isSome then none else some (refMsg r.1 r.2)

/-- `_validate_cross_references`: the (errors, warnings) it appends — it only
ever appends warnings, one per reference whose code is not in `TDR_TYPES`. -/
def validate_cross_references (content : String) : List String × List String :=
  ([], (findRefs content).filterMap refWarnFn)

/-! ### AI-context validation (`_validate_ai_context`) -/

def ai_valid_levels : List String := ["low", "medium", "high", "critical"]

/-- `_validate_ai_context`: the (errors, warnings) it appends. -/
def validate_ai_context (fm : Fm) : List String × List String :=
  match fm.lookup "ai-context" with
  | none => ([], [])
  | some (YVal.dict d) =>
    let w1 :=
      match d.lookup "summary" with
      | none => []
      | some (YVal.str s) =>
        if s.length < 20 then
          ["AI context summary should be a descriptive string (20+ chars)"]
        else []
      | some _ => ["AI context summary should be a descriptive string (20+ chars)"]
    let w2 :=
      match d.lookup "keywords" with
      | none => []
      | some (YVal.list _) => []
      | some _ => ["AI context keywords should be a list"]
    let w3 :=
      match d.lookup "complexity-level" with
      | none => []
      | some v =>
        if ai_valid_levels.any (fun s => yvalBeq v (YVal.str s)) then []
        else ["AI context complexity-level should be one of: [\x27low\x27, \x27medium\x27, \x27high\x27, \x27critical\x27]"]
    ([], w1 ++ w2 ++ w3)
  | some _ => (["ai-context must be a dictionary"], [])

/-! ### Result records -/

structure ResultMetadata where
  frontmatter : Option Fm
  section_count : Nat
  sections : List String
  has_ai_context : Bool

structure Result where
  file : String
  valid : Bool
  errors : List String
  warnings : List String
  metadata : Option ResultMetadata

/-- `_create_result`: `valid` is `len(errors) == 0`; the metadata records the
frontmatter, section count and names, and whether a truthy frontmatter has an
`ai-context` key. -/
def create_result (file_path : String) (frontmatter : Option Fm)
    (sections : List (String × String)) (errors warnings : List String) :
    Result :=
  { file := file_path
    valid := errors.isEmpty
    errors := errors
    warnings := warnings
    metadata := some
      { frontmatter := frontmatter
        section_count := sections.length
        sections := sections.map Prod.fst
        has_ai_context :=
          match frontmatter with
          | some fm => if fm.isEmpty then false else (fm.lookup "ai-context").isSome
          | none => false } }

/-- `_create_error_result`: a file-level failure record with the fixed
placeholder file name and an empty metadata dict. -/
def create_error_result (error_message : String) : Result :=
  { file := "unknown"
    valid := false
    errors := [error_message]
    warnings := []
    metadata := none }

/-! ### The orchestrator (`validate_file`, `validate_directory`) -/

/-- `validate_file`: read, extract frontmatter, and on a truthy frontmatter
run field, section, cross-reference and AI-context checks in source order,
concatenating the diagnostics each appends.  `.error` is an uncaught Python
exception escaping the call. -/
def validate_file (ext : Ext) (strict_mode : Bool) (read : ReadOutcome)
    (file_path : String) : Except String Result :=
  match read with
  | .notFound => .ok (create_error_result ("File not found: " ++ file_path))
  | .badEncoding =>
    .ok (create_error_result ("Invalid UTF-8 encoding: " ++ file_path))
  | .content c =>
    match parse_frontmatter ext c with
    | (fmOpt, markdown_content, errs0) =>
      match fmOpt with
      | none =>
        .ok (create_result file_path none []
          (errs0 ++ ["Missing or invalid YAML frontmatter"]) [])
      | some fm =>
        if fm.isEmpty then
          .ok (create_result file_path (some fm) []
            (errs0 ++ ["Missing or invalid YAML frontmatter"]) [])
        else
          match validate_frontmatter ext fm with
          | .error e => .error e
          | .ok (errs1, warns1) =>
            match
              (match fm.lookup "type" with
               | some t =>
                 validate_sections strict_mode t (parse_sections markdown_content)
               | none => .ok ([], [])) with
            | .error e => .error e
            | .ok (errs2, warns2) =>
              let (errs3, warns3) := validate_cross_references markdown_content
              let (errs4, warns4) := validate_ai_context fm
              .ok (create_result file_path (some fm)
                (parse_sections markdown_content)
                (errs0 ++ errs1 ++ errs2 ++ errs3 ++ errs4)
                (warns1 ++ warns2 ++ warns3 ++ warns4))

/-- Ordinal comparison of file names, as Python compares path strings. -/
def charListLt : List Char → List Char → Bool
  | [], [] => false
  | [], _ :: _ => true
  | _ :: _, [] => false
  | a :: xs, b :: ys => if a < b then true else if b < a then false else charListLt xs ys

def insertByName (x : String × ReadOutcome) :
    List (String × ReadOutcome) → List (String × ReadOutcome)
  | [] => [x]
  | y :: ys =>
    if charListLt x.1.data y.1.data then x :: y :: ys else y :: insertByName x ys

/-- `sorted(tdr_files)`. -/
def sortByName : List (String × ReadOutcome) → List (String × ReadOutcome)
  | [] => []
  | x :: xs => insertByName x (sortByName xs)

/-- The per-file loop of `validate_directory`; an exception escaping
`validate_file` aborts the whole batch. -/
def validateFiles (ext : Ext) (strict_mode : Bool) :
    List (String × ReadOutcome) → Except String (List Result)
  | [] => .ok []
  | (name, r) :: rest =>
    match validate_file ext strict_mode r name with
    | .error e => .error e
    | .ok res =>
      match validateFiles ext strict_mode rest with
      | .error e => .error e
      | .ok ress => .ok (res :: ress)

/-- `validate_directory`: missing directory or no `.md` files yield a single
error result; otherwise every file is validated in sorted name order. -/
def validate_directory (ext : Ext) (strict_mode : Bool) (d : DirOutcome)
    (dir_path : String) : Except String (List Result) :=
  match d with
  | .notDir => .ok [create_error_result ("Directory not found: " ++ dir_path)]
  | .mdFiles files =>
    if files.isEmpty then
      .ok [create_error_result ("No .md files found in: " ++ dir_path)]
    else validateFiles ext strict_mode (sortByName files)

end TDRValidator

namespace TDRValidator

/-! ### Generic helper lemmas -/

lemma str_data_append (a b : String) : (a ++ b).data = a.data ++ b.data := by
  cases a; cases b; rfl

lemma str_ext {a b : String} (h : a.data = b.data) : a = b := by
  cases a; cases b; cases h; rfl

lemma str_append_left_cancel {p a b : String} (h : p ++ a = p ++ b) : a = b := by
  apply str_ext
  have h2 := congrArg String.data h
  rw [str_data_append, str_data_append] at h2
  exact List.append_cancel_left h2

/-- A trivial oracle used to instantiate witnesses: the decoder always reports
a falsy decode result. -/
def extTriv : Ext :=
  { decode := fun _ => DecodeOutcome.value none, dateOk := fun _ => false }

/-! ### C10: frontmatter recovery conditions -/

/-- C10: frontmatter is recovered only when the content starts with `---`
plus a line break and a closing `\n---\n` occurs at character index ≥ 4; when
either delimiter condition fails, the extractor returns (absent, original
content unchanged) and appends no diagnostic.  In particular a document whose
closing `---` is the final line with no trailing newline satisfies the second
condition, so the header is not recovered. -/
theorem C10_delimiter_conditions (ext : Ext) (content : String)
    (h : ("---\n".data.isPrefixOf content.data) = false ∨
         subFindAux "\n---\n".data (content.data.drop 4) 4 = none) :
    parse_frontmatter ext content = (none, content, []) := by
  unfold parse_frontmatter parseRaw
  rcases h with h | h
  · simp [h]
  · simp [h]

/-- C10 witness: a truncated header (closing `---` is the last line, no
trailing newline) is not recovered. -/
theorem C10_witness :
    subFindAux "\n---\n".data ("---\na: b\n---".data.drop 4) 4 = none ∧
    parse_frontmatter extTriv "---\na: b\n---" = (none, "---\na: b\n---", []) :=
  ⟨rfl, C10_delimiter_conditions extTriv "---\na: b\n---" (Or.inr rfl)⟩

/-! ### C3: missing header short-circuit -/

/-- C3: when the delimiter scan recovers no frontmatter (content does not
begin with the `---` line, or no closing delimiter line follows), the result
has exactly the one "missing or invalid header" error, no warnings, and
metadata with empty frontmatter and an empty section map — none of the
field/section/cross-reference/AI-context checks contribute anything. -/
theorem C3_missing_header (ext : Ext) (strict : Bool) (path content : String)
    (h : parseRaw content = none) :
    validate_file ext strict (.content content) path = .ok
      { file := path
        valid := false
        errors := ["Missing or invalid YAML frontmatter"]
        warnings := []
        metadata := some
          { frontmatter := none
            section_count := 0
            sections := []
            has_ai_context := false } } := by
  simp only [validate_file, parse_frontmatter, h]
  rfl

/-- C3 witness: a document with no header at all. -/
theorem C3_witness :
    parseRaw "# Title\nbody ADR-1" = none ∧
    validate_file extTriv false (.content "# Title\nbody ADR-1") "doc.md" = .ok
      { file := "doc.md"
        valid := false
        errors := ["Missing or invalid YAML frontmatter"]
        warnings := []
        metadata := some
          { frontmatter := none
            section_count := 0
            sections := []
            has_ai_context := false } } :=
  ⟨rfl, C3_missing_header extTriv false "doc.md" "# Title\nbody ADR-1" rfl⟩

end TDRValidator

namespace TDRValidator

/-! ### C9: AI-context severities -/

/-- C9 counterexample: an `ai-context` value that is not a mapping makes
`_validate_ai_context` append an error ("ai-context must be a dictionary"),
refuting the claim that this component never appends to the error list. -/
theorem C9_counterexample :
    validate_ai_context [("ai-context", YVal.int 1)] =
      (["ai-context must be a dictionary"], []) := rfl

/-- C9 amended: for a frontmatter whose `ai-context` value is a nested
mapping, every diagnostic the AI-Context Validator appends is a warning (it
appends no error); for a non-mapping value it appends exactly one error
("ai-context must be a dictionary") and no warning. -/
theorem C9_amended (fm : Fm) (v : YVal)
    (h : fm.lookup "ai-context" = some v) :
    (∀ d, v = YVal.dict d → (validate_ai_context fm).1 = []) ∧
    ((∀ d, v ≠ YVal.dict d) →
      validate_ai_context fm = (["ai-context must be a dictionary"], [])) := by
  constructor
  · rintro d rfl
    simp only [validate_ai_context, h]
  · intro hnd
    cases v with
    | dict d => exact absurd rfl (hnd d)
    | str s => simp [validate_ai_context, h]
    | int n => simp [validate_ai_context, h]
    | bool b => simp [validate_ai_context, h]
    | null => simp [validate_ai_context, h]
    | list l => simp [validate_ai_context, h]

/-- C9 witness: a mapping-valued `ai-context` with a short summary yields no
error (its diagnostics are warnings only). -/
theorem C9_witness :
    (validate_ai_context
      [("ai-context", YVal.dict [("summary", YVal.str "short")])]).1 = [] :=
  (C9_amended [("ai-context", YVal.dict [("summary", YVal.str "short")])]
      (YVal.dict [("summary", YVal.str "short")]) rfl).1
    [("summary", YVal.str "short")] rfl

/-! ### C5: field-validator totality -/

/-- A key is absent or holds a string value. -/
def strOrAbsent (fm : Fm) (k : String) : Bool :=
  match fm.lookup k with
  | none => true
  | some (YVal.str _) => true
  | some _ => false

/-- C5 counterexample: a frontmatter whose `type` is a number makes
`_validate_frontmatter` raise an uncaught AttributeError
(`frontmatter['type'].upper()` on an `int`), and the exception escapes
`validate_file`; the Field Validator does not return normally on such input,
refuting the claim. -/
theorem C5_counterexample :
    validate_frontmatter extTriv [("type", YVal.int 3)] =
      .error "AttributeError: upper" ∧
    validate_file
      { decode := fun _ => DecodeOutcome.value (some [("type", YVal.int 3)])
        dateOk := fun _ => true }
      false (.content "---\nt\n---\nbody") "f.md" =
      .error "AttributeError: upper" :=
  ⟨rfl, rfl⟩

/-- C5 amended: on every decoded frontmatter mapping whose `type` and
`status` entries, where present, hold string values, the Field Validator
appends its diagnostics and returns normally; a non-string `type` or `status`
instead raises an uncaught AttributeError from the upper/lower casing. -/
theorem C5_amended (ext : Ext) (fm : Fm)
    (ht : strOrAbsent fm "type" = true) (hs : strOrAbsent fm "status" = true) :
    ∃ d, validate_frontmatter ext fm = .ok d := by
  simp only [strOrAbsent] at ht hs
  simp only [validate_frontmatter, typeCheck, statusCheck]
  rcases h1 : List.lookup "type" fm with _ | v1 <;> rw [h1] at ht
  · rcases h2 : List.lookup "status" fm with _ | v2 <;> rw [h2] at hs
    · exact ⟨_, rfl⟩
    · cases v2 <;> simp_all
  · rcases h2 : List.lookup "status" fm with _ | v2 <;> rw [h2] at hs
    · cases v1 <;> simp_all
    · cases v1 <;> cases v2 <;> simp_all

/-- C5 witness: a frontmatter with string `type` and `status` (and a missing
date) is processed normally. -/
theorem C5_witness :
    ∃ d, validate_frontmatter extTriv
      [("type", YVal.str "ADR"), ("status", YVal.str "accepted")] = .ok d :=
  C5_amended extTriv [("type", YVal.str "ADR"), ("status", YVal.str "accepted")]
    rfl rfl

end TDRValidator

namespace TDRValidator

/-! ### C4: file-level catastrophic conditions -/

/-- The decode-failure oracle used in the C4 counterexample. -/
def extYamlErr : Ext :=
  { decode := fun _ => DecodeOutcome.yamlError "e", dateOk := fun _ => false }

/-- C4 counterexample: on a decode failure of the metadata block the result
carries two errors (the decode diagnostic and the missing-header error), not
exactly one, refuting the claim. -/
theorem C4_counterexample :
    (validate_file extYamlErr false (.content "---\nt\n---\nbody") "f.md").map
        Result.errors =
      .ok ["Invalid YAML frontmatter: e",
           "Missing or invalid YAML frontmatter"] := rfl

/-- C4 amended: every file-level catastrophic condition is converted into
errors on that file's result rather than raising — an unreadable file, an
invalid encoding and a missing header each yield exactly one error, while a
decode failure of the metadata block yields two (the decode diagnostic
followed by the missing-header error). -/
theorem C4_amended (ext : Ext) (strict : Bool) (path c1 c2 y md m : String) :
    ((validate_file ext strict .notFound path).map
        (fun r => r.errors.length) = .ok 1) ∧
    ((validate_file ext strict .badEncoding path).map
        (fun r => r.errors.length) = .ok 1) ∧
    (parseRaw c1 = none →
      (validate_file ext strict (.content c1) path).map
        (fun r => r.errors.length) = .ok 1) ∧
    (parseRaw c2 = some (y, md) → ext.decode y = .yamlError m →
      (validate_file ext strict (.content c2) path).map Result.errors =
        .ok ["Invalid YAML frontmatter: " ++ m,
             "Missing or invalid YAML frontmatter"]) := by
  refine ⟨rfl, rfl, ?_, ?_⟩
  · intro h
    simp only [validate_file, parse_frontmatter, h]
    rfl
  · intro h hd
    simp only [validate_file, parse_frontmatter, h, hd]
    rfl

/-- C4 witness: the four conditions at concrete inputs — a missing file, a
bad encoding, a header-less document, and a document whose header text makes
the decoder fail. -/
theorem C4_witness :
    ((validate_file extYamlErr false .notFound "f.md").map
        (fun r => r.errors.length) = .ok 1) ∧
    ((validate_file extYamlErr false .badEncoding "f.md").map
        (fun r => r.errors.length) = .ok 1) ∧
    ((validate_file extYamlErr false (.content "no header") "f.md").map
        (fun r => r.errors.length) = .ok 1) ∧
    ((validate_file extYamlErr false (.content "---\nt\n---\nbody") "f.md").map
        Result.errors =
      .ok ["Invalid YAML frontmatter: e",
           "Missing or invalid YAML frontmatter"]) := by
  obtain ⟨h1, h2, h3, h4⟩ :=
    C4_amended extYamlErr false "f.md" "no header" "---\nt\n---\nbody" "t" "body" "e"
  exact ⟨h1, h2, h3 rfl, h4 rfl rfl⟩

end TDRValidator

namespace TDRValidator

/-! ### C2: validity flag iff empty error list -/

lemma validate_file_ok_shape (ext : Ext) (strict : Bool) (read : ReadOutcome)
    (path : String) (r : Result)
    (h : validate_file ext strict read path = .ok r) :
    (∃ m, r = create_error_result m) ∨
    (∃ p fm secs errs warns, r = create_result p fm secs errs warns) := by
  unfold validate_file at h
  repeat' split at h
  all_goals first
    | (injection h with h'; exact Or.inl ⟨_, h'.symm⟩)
    | (injection h with h'; exact Or.inr ⟨_, _, _, _, _, h'.symm⟩)
    | exact Except.noConfusion h

lemma validateFiles_mem (ext : Ext) (strict : Bool) :
    ∀ (files : List (String × ReadOutcome)) (rs : List Result),
      validateFiles ext strict files = .ok rs →
      ∀ x ∈ rs, ∃ nm rd, validate_file ext strict rd nm = .ok x := by
  intro files
  induction files with
  | nil =>
    intro rs h x hx
    unfold validateFiles at h
    injection h with h'
    subst h'
    simp at hx
  | cons f rest ih =>
    intro rs h x hx
    obtain ⟨nm, rd⟩ := f
    unfold validateFiles at h
    split at h
    · exact Except.noConfusion h
    next res hres =>
      split at h
      · exact Except.noConfusion h
      next ress hress =>
        injection h with h'
        subst h'
        rcases List.mem_cons.mp hx with rfl | hx'
        · exact ⟨nm, rd, hres⟩
        · exact ih ress hress x hx'

/-- C2: every result record returned by `validate_file`, and every element of
a result list returned by `validate_directory` (including the file-level and
directory-level failure records), has its validity flag true exactly when its
error list is empty. -/
theorem C2_valid_iff_errors_empty (ext : Ext) (strict : Bool)
    (read : ReadOutcome) (path : String) (d : DirOutcome) (dirPath : String)
    (r : Result) (rs : List Result) :
    (validate_file ext strict read path = .ok r →
      (r.valid = true ↔ r.errors = [])) ∧
    (validate_directory ext strict d dirPath = .ok rs →
      ∀ x ∈ rs, (x.valid = true ↔ x.errors = [])) := by
  have herr : ∀ m : String,
      ((create_error_result m).valid = true ↔ (create_error_result m).errors = []) := by
    intro m; simp [create_error_result]
  have hcr : ∀ p fm secs errs warns,
      ((create_result p fm secs errs warns).valid = true ↔
        (create_result p fm secs errs warns).errors = []) := by
    intro p fm secs errs warns
    simp [create_result, List.isEmpty_iff]
  have hfile : ∀ (read : ReadOutcome) (path : String) (r : Result),
      validate_file ext strict read path = .ok r →
      (r.valid = true ↔ r.errors = []) := by
    intro read path r h
    rcases validate_file_ok_shape ext strict read path r h with
      ⟨m, rfl⟩ | ⟨p, fm, secs, errs, warns, rfl⟩
    · exact herr m
    · exact hcr p fm secs errs warns
  refine ⟨hfile read path r, ?_⟩
  intro h x hx
  unfold validate_directory at h
  split at h
  · injection h with h'
    subst h'
    rcases List.mem_singleton.mp hx with rfl
    exact herr _
  · split at h
    · injection h with h'
      subst h'
      rcases List.mem_singleton.mp hx with rfl
      exact herr _
    · obtain ⟨nm, rd, hv⟩ := validateFiles_mem ext strict _ rs h x hx
      exact hfile rd nm x hv

/-- C2 witness: the file-level failure record of a missing file, and the
single-element list returned for a missing directory. -/
theorem C2_witness :
    ((create_error_result "File not found: f.md").valid = true ↔
      (create_error_result "File not found: f.md").errors = []) ∧
    (∀ x ∈ [create_error_result "Directory not found: d"],
      (x.valid = true ↔ x.errors = [])) :=
  ⟨(C2_valid_iff_errors_empty extTriv false .notFound "f.md" .notDir "d"
      (create_error_result "File not found: f.md")
      [create_error_result "Directory not found: d"]).1 rfl,
   (C2_valid_iff_errors_empty extTriv false .notFound "f.md" .notDir "d"
      (create_error_result "File not found: f.md")
      [create_error_result "Directory not found: d"]).2 rfl⟩

end TDRValidator

namespace TDRValidator

/-! ### C7: required-section diagnostics -/

lemma missing_ne_empty (a b : String) :
    ("Missing required section: " ++ a) ≠ ("Required section is empty: " ++ b) := by
  intro h
  have h2 := congrArg String.data h
  rw [str_data_append, str_data_append] at h2
  have hM : ("Missing required section: " : String).data =
      'M' :: ("issing required section: " : String).data := rfl
  have hR : ("Required section is empty: " : String).data =
      'R' :: ("equired section is empty: " : String).data := rfl
  rw [hM, hR, List.cons_append, List.cons_append] at h2
  injection h2 with h3 _
  exact absurd h3 (by decide)

lemma missing_mem (req : List String) (secs : List (String × String))
    (name : String) (hmem : name ∈ req) (hl : secs.lookup name = none) :
    ("Missing required section: " ++ name) ∈ sectionRequiredErrors req secs := by
  induction req with
  | nil => simp at hmem
  | cons hd tl ih =>
    rcases List.mem_cons.mp hmem with rfl | hmem'
    · simp only [sectionRequiredErrors, hl]
      exact List.mem_append.mpr (Or.inl (by simp))
    · exact List.mem_append.mpr (Or.inr (ih hmem'))

lemma empty_mem (req : List String) (secs : List (String × String))
    (name c : String) (hmem : name ∈ req) (hl : secs.lookup name = some c)
    (hc : pyStrip c = "") :
    ("Required section is empty: " ++ name) ∈ sectionRequiredErrors req secs := by
  induction req with
  | nil => simp at hmem
  | cons hd tl ih =>
    rcases List.mem_cons.mp hmem with rfl | hmem'
    · simp only [sectionRequiredErrors, hl, hc]
      exact List.mem_append.mpr (Or.inl (by simp))
    · exact List.mem_append.mpr (Or.inr (ih hmem'))

lemma missing_mem_imp (req : List String) (secs : List (String × String))
    (name : String)
    (h : ("Missing required section: " ++ name) ∈ sectionRequiredErrors req secs) :
    secs.lookup name = none := by
  induction req with
  | nil => simp [sectionRequiredErrors] at h
  | cons hd tl ih =>
    simp only [sectionRequiredErrors] at h
    rcases List.mem_append.mp h with h1 | h2
    · split at h1
      next hl =>
        rw [str_append_left_cancel (List.mem_singleton.mp h1)]
        exact hl
      next c hl =>
        split at h1
        · exact absurd (List.mem_singleton.mp h1) (missing_ne_empty name hd)
        · simp at h1
    · exact ih h2

/-- C7: for every valid declared type and every section name in its required
list, the Section Validator appends the "missing required section" error
exactly in the absent case, and for a present section whose trimmed content
is empty it appends the "required section is empty" error instead — never the
missing-section error. -/
theorem C7_required_section_errors (strict : Bool) (ts : String)
    (cfg : TdrConfig) (secs : List (String × String)) (name : String)
    (hcfg : tdrTypesLookup (pyStrUpper ts) = some cfg)
    (hmem : name ∈ cfg.required_sections) :
    validate_sections strict (YVal.str ts) secs =
      .ok (sectionRequiredErrors cfg.required_sections secs,
           if strict then strictSectionWarns (pyStrUpper ts) cfg secs else []) ∧
    (secs.lookup name = none →
      ("Missing required section: " ++ name) ∈
        sectionRequiredErrors cfg.required_sections secs) ∧
    (∀ c, secs.lookup name = some c → pyStrip c = "" →
      ("Required section is empty: " ++ name) ∈
        sectionRequiredErrors cfg.required_sections secs ∧
      ("Missing required section: " ++ name) ∉
        sectionRequiredErrors cfg.required_sections secs) := by
  refine ⟨?_, ?_, ?_⟩
  · simp only [validate_sections, hcfg]
  · intro hl
    exact missing_mem _ secs name hmem hl
  · intro c hl hc
    refine ⟨empty_mem _ secs name c hmem hl hc, ?_⟩
    intro hin
    rw [missing_mem_imp _ secs name hin] at hl
    exact Option.noConfusion hl

/-- C7 witness: for type `adr`, a whitespace-only `Status` section yields the
empty-section error and not the missing-section error, while the absent
`Context` section yields the missing-section error. -/
theorem C7_witness :
    ("Required section is empty: " ++ "Status") ∈
      sectionRequiredErrors ["Status", "Context", "Decision", "Consequences"]
        [("Status", " ")] ∧
    ("Missing required section: " ++ "Status") ∉
      sectionRequiredErrors ["Status", "Context", "Decision", "Consequences"]
        [("Status", " ")] ∧
    ("Missing required section: " ++ "Context") ∈
      sectionRequiredErrors ["Status", "Context", "Decision", "Consequences"]
        [("Status", " ")] := by
  have h1 := C7_required_section_errors false "adr"
    { name := "Architectural Decision Record"
      required_sections := ["Status", "Context", "Decision", "Consequences"]
      optional_sections := ["Rationale", "Alternatives Considered", "Implementation",
        "Assumptions", "Constraints", "Related Decisions"] }
    [("Status", " ")] "Status" rfl (by simp)
  have h2 := C7_required_section_errors false "adr"
    { name := "Architectural Decision Record"
      required_sections := ["Status", "Context", "Decision", "Consequences"]
      optional_sections := ["Rationale", "Alternatives Considered", "Implementation",
        "Assumptions", "Constraints", "Related Decisions"] }
    [("Status", " ")] "Context" rfl (by simp)
  obtain ⟨he, hm⟩ := h1.2.2 " " rfl rfl
  exact ⟨he, hm, h2.2.1 rfl⟩

end TDRValidator

namespace TDRValidator

/-! ### C6: duplicate headings collapse last-wins -/

lemma lookup_dictInsert_self (l : List (String × String)) (k v : String) :
    (dictInsert l k v).lookup k = some v := by
  induction l with
  | nil => simp [dictInsert]
  | cons p rest ih =>
    obtain ⟨a, b⟩ := p
    by_cases hak : a = k
    · subst hak
      simp [dictInsert, List.lookup]
    · have h1 : (a == k) = false := beq_eq_false_iff_ne.mpr hak
      have h2 : (k == a) = false := beq_eq_false_iff_ne.mpr (Ne.symm hak)
      simp [dictInsert, h1, List.lookup, h2, ih]

lemma secFoldl_no_header (lines : List String)
    (h : ∀ l ∈ lines, headerName l = none) (n : String) :
    ∀ (acc : List String) (secs : List (String × String)),
      lines.foldl secStep ⟨some n, acc, secs⟩ = ⟨some n, acc ++ lines, secs⟩ := by
  induction lines with
  | nil => intro acc secs; simp
  | cons l ls ih =>
    intro acc secs
    have hl : headerName l = none := h l (by simp)
    have hstep : secStep ⟨some n, acc, secs⟩ l = ⟨some n, acc ++ [l], secs⟩ := by
      simp [secStep, hl]
    rw [List.foldl_cons, hstep, ih (fun x hx => h x (by simp [hx])) (acc ++ [l]) secs]
    simp

lemma secStep_header (st : SecState) (l name : String)
    (h : headerName l = some name) :
    secStep st l = ⟨some name, [], saveCurrent st⟩ := by
  simp [secStep, h]

lemma lookup_dictInsert_other (l : List (String × String)) (k' v k : String)
    (h : k' ≠ k) : (dictInsert l k' v).lookup k = l.lookup k := by
  induction l with
  | nil =>
    simp [dictInsert, List.lookup, beq_eq_false_iff_ne.mpr (Ne.symm h)]
  | cons p rest ih =>
    obtain ⟨a, b⟩ := p
    by_cases hak : (a == k') = true
    · have ha : a = k' := by simpa using hak
      have hka : (k == a) = false :=
        beq_eq_false_iff_ne.mpr (by rw [ha]; exact Ne.symm h)
    
      simp [dictInsert, hak, List.lookup, hka]
    · by_cases hka : (k == a) = true
      · simp [dictInsert, hak, List.lookup, hka]
      · simp [dictInsert, hak, List.lookup, hka, ih]

lemma saveCurrent_lookup (st : SecState) (name : String)
    (h : st.current ≠ some name) :
    (saveCurrent st).lookup name = st.secs.lookup name := by
  unfold saveCurrent
  cases hc : st.current with
  | none => rfl
  | some cur =>
    have hne : cur ≠ name := by
      rintro rfl
      exact h hc
    exact lookup_dictInsert_other _ _ _ _ hne

/-- Folding further lines none of which is a heading with text `name`, from a
state whose pending section is not `name`, never changes what the final map
assigns to `name`. -/
lemma secFinish_foldl_preserved (name : String) :
    ∀ (lines : List String) (st : SecState),
      (∀ l ∈ lines, headerName l ≠ some name) →
      st.current ≠ some name →
      (secFinish (lines.foldl secStep st)).lookup name = st.secs.lookup name := by
  intro lines
  induction lines with
  | nil =>
    intro st _ hcur
    simpa [secFinish] using saveCurrent_lookup st name hcur
  | cons l ls ih =>
    intro st hl hcur
    rw [List.foldl_cons]
    rcases hh : headerName l with _ | name'
    · have hstep : (secStep st l).current = st.current ∧
          (secStep st l).secs = st.secs := by
        unfold secStep
        rw [hh]
        cases hc : st.current <;> simp [hc]
      rw [ih (secStep st l) (fun x hx => hl x (by simp [hx]))
        (hstep.1 ▸ hcur), hstep.2]
    · have hne : name' ≠ name := by
        rintro rfl
        exact hl l (by simp) hh
      rw [secStep_header st l name' hh,
        ih ⟨some name', [], saveCurrent st⟩ (fun x hx => hl x (by simp [hx]))
          (by simp [hne])]
      exact saveCurrent_lookup st name hcur

lemma dropWhile_head_false (p : String → Bool) :
    ∀ (l : List String) (r : String) (rest' : List String),
      l.dropWhile p = r :: rest' → p r = false := by
  intro l
  induction l with
  | nil => intro r rest' h; simp at h
  | cons x xs ih =>
    intro r rest' h
    by_cases hp : p x = true
    · rw [List.dropWhile_cons, if_pos hp] at h
      exact ih r rest' h
    · rw [List.dropWhile_cons, if_neg hp] at h
      injection h with h1 _
      rw [← h1]
      exact Bool.not_eq_true _ ▸ (by simpa using hp)

/-- C6: for every body text containing two headings with identical trimmed
text, where the later one is the last occurrence of that text (lines between
the duplicates and after the later one may contain arbitrary other headings),
the Section Segmenter maps that heading text to the content of the later
occurrence: the lines following it up to the next heading or the end of the
body, joined and stripped.  The segmenter returns only the map and appends to
neither diagnostic list, so no error or warning is produced for the
duplication. -/
theorem C6_duplicate_headings_last_wins (body : String)
    (pre mid post : List String) (h1 h2 name : String)
    (hsplit : pySplitNl body = pre ++ h1 :: (mid ++ h2 :: post))
    (hh1 : headerName h1 = some name) (hh2 : headerName h2 = some name)
    (hpost : ∀ l ∈ post, headerName l ≠ some name) :
    (parse_sections body).lookup name =
      some (pyStrip (String.intercalate "\n"
        (post.takeWhile fun l => (headerName l).isNone))) := by
  unfold parse_sections
  rw [hsplit, List.foldl_append]
  generalize (List.foldl secStep ⟨none, [], []⟩ pre) = st0
  rw [List.foldl_cons, secStep_header st0 h1 name hh1, List.foldl_append]
  generalize (List.foldl secStep ⟨some name, [], saveCurrent st0⟩ mid) = st1
  rw [List.foldl_cons, secStep_header st1 h2 name hh2]
  have htake : ∀ l ∈ post.takeWhile (fun l => (headerName l).isNone),
      headerName l = none := by
    intro l hlmem
    have h1 := List.mem_takeWhile_imp hlmem
    simpa using h1
  conv_lhs =>
    rw [← List.takeWhile_append_dropWhile (fun l => (headerName l).isNone) post,
      List.foldl_append,
      secFoldl_no_header _ htake name [] (saveCurrent st1)]
  rcases hdrop : post.dropWhile (fun l => (headerName l).isNone) with _ | ⟨r, rest'⟩
  · rw [List.foldl_nil]
    simp only [secFinish, saveCurrent, List.nil_append]
    exact lookup_dictInsert_self _ name _
  · rw [List.foldl_cons]
    obtain ⟨nr, hnr⟩ : ∃ nr, headerName r = some nr := by
      have hpf := dropWhile_head_false _ post r rest' hdrop
      rcases hh : headerName r with _ | nr
      · rw [hh] at hpf
        simp at hpf
      · exact ⟨nr, rfl⟩
    have hrmem : r ∈ post :=
      (hdrop ▸ List.dropWhile_sublist (fun l => (headerName l).isNone)).mem
        (by simp)
    have hnrne : nr ≠ name := by
      rintro rfl
      exact hpost r hrmem hnr
    rw [secStep_header _ r nr hnr,
      secFinish_foldl_preserved name rest' _
        (fun x hx => hpost x
          (((hdrop ▸ List.dropWhile_sublist
            (fun l => (headerName l).isNone)).mem (by simp [hx]))))
        (by simp [hnrne])]
    simp only [saveCurrent, List.nil_append]
    exact lookup_dictInsert_self _ name _

/-- C6 witness: two bodies — one where the duplicated heading is followed by
a further different heading, and one where a different heading sits between
the duplicates — both map `A` to the later occurrence's content. -/
theorem C6_witness :
    (parse_sections "## A\nx\n## A\ny\n## B\nz").lookup "A" = some "y" ∧
    (parse_sections "## A\nx\n## B\nm\n## A\ny").lookup "A" = some "y" := by
  have ha := C6_duplicate_headings_last_wins "## A\nx\n## A\ny\n## B\nz"
    [] ["x"] ["y", "## B", "z"] "## A" "## A" "A" rfl rfl rfl (by decide)
  have hb := C6_duplicate_headings_last_wins "## A\nx\n## B\nm\n## A\ny"
    [] ["x", "## B", "m"] ["y"] "## A" "## A" "A" rfl rfl rfl (by decide)
  exact ⟨ha, hb⟩

end TDRValidator

namespace TDRValidator

/-! ### C8: cross-reference scanner -/

lemma refTry_some_len (prevW : Bool) (cs : List Char)
    (r : String × String × List Char) (h : refTry prevW cs = some r) :
    r.1.length = 3 := by
  unfold refTry at h
  repeat' split at h
  all_goals first
    | exact Option.noConfusion h
    | (injection h with h2; subst h2; rfl)

lemma refsAux_mem_len :
    ∀ (fuel : Nat) (prevW : Bool) (cs : List Char) (r : String × String),
      r ∈ refsAux fuel prevW cs → r.1.length = 3 := by
  intro fuel
  induction fuel with
  | zero => intro _ _ r h; simp [refsAux] at h
  | succ n ih =>
    intro prevW cs r h
    cases cs with
    | nil => simp [refsAux] at h
    | cons c cs' =>
      rw [refsAux] at h
      split at h
      next t d rest htry =>
        rcases List.mem_cons.mp h with rfl | h'
        · exact refTry_some_len prevW (c :: cs') (t, d, rest) htry
        · exact ih true rest r h'
      next htry => exact ih (isWordChar c) cs' r h

lemma refMsg_inj {t i t' i' : String} (ht : t.length = 3) (ht' : t'.length = 3)
    (h : refMsg t i = refMsg t' i') : t = t' ∧ i = i' := by
  unfold refMsg at h
  have h2 := congrArg String.data h
  simp only [str_data_append, List.append_assoc] at h2
  have h3 := List.append_cancel_left h2
  have hlt : t.data.length = t'.data.length := by
    have e1 : t.data.length = t.length := rfl
    have e2 : t'.data.length = t'.length := rfl
    rw [e1, e2, ht, ht']
  obtain ⟨h4, h5⟩ := List.append_inj h3 hlt
  exact ⟨str_ext h4, str_ext (List.append_cancel_left h5)⟩

lemma known_not_mem (t i : String) (ht3 : t.length = 3)
    (hk : (tdrTypesLookup t).isSome = true)
    (refs : List (String × String)) (hlen : ∀ r ∈ refs, r.1.length = 3) :
    refMsg t i ∉ refs.filterMap refWarnFn := by
  intro h
  obtain ⟨r, hr, hfr⟩ := List.mem_filterMap.mp h
  obtain ⟨t', i'⟩ := r
  unfold refWarnFn at hfr
  by_cases hk' : (tdrTypesLookup t').isSome = true
  · rw [if_pos hk'] at hfr
    exact Option.noConfusion hfr
  · rw [if_neg hk'] at hfr
    injection hfr with hm
    obtain ⟨rfl, _⟩ := refMsg_inj (hlen (t', i') hr) ht3 hm
    exact hk' hk

lemma count_refWarns (t i : String) (ht3 : t.length = 3)
    (hunk : (tdrTypesLookup t).isSome = false) :
    ∀ (refs : List (String × String)), (∀ r ∈ refs, r.1.length = 3) →
      (refs.filterMap refWarnFn).count (refMsg t i) = refs.count (t, i) := by
  intro refs
  induction refs with
  | nil => intro _; simp
  | cons r rest ih =>
    intro hlen
    obtain ⟨t', i'⟩ := r
    have ht' : t'.length = 3 := hlen (t', i') (by simp)
    have ihr := ih fun x hx => hlen x (by simp [hx])
    by_cases hk : (tdrTypesLookup t').isSome = true
    · have hne : ((t', i') : String × String) ≠ (t, i) := by
        intro he
        have h1 : t' = t := congrArg Prod.fst he
        rw [h1, hunk] at hk
        exact Bool.noConfusion hk
      have hfn : refWarnFn (t', i') = none := by simp [refWarnFn, hk]
      rw [List.filterMap_cons, hfn, List.count_cons]
      simp [hne, ihr]
    · by_cases he : ((t', i') : String × String) = (t, i)
      · rw [Prod.ext_iff] at he
        obtain ⟨h1, h2⟩ := he
        dsimp at h1 h2
        subst h1
        subst h2
        have hfn : refWarnFn (t', i') = some (refMsg t' i') := by
          simp [refWarnFn, hunk]
        rw [List.filterMap_cons, hfn, List.count_cons, List.count_cons]
        simp [ihr]
      · have hmsgne : refMsg t' i' ≠ refMsg t i := by
          intro hm
          obtain ⟨h1, h2⟩ := refMsg_inj ht' ht3 hm
          exact he (by rw [h1, h2])
        have hfn : refWarnFn (t', i') = some (refMsg t' i') := by
          simp [refWarnFn, hk]
        rw [List.filterMap_cons, hfn, List.count_cons, List.count_cons]
        simp [hmsgne, he, ihr]

/-- C8: the Cross-Reference Scanner appends only warnings — its error
contribution is empty for every body text — and for every token the regex
finds (three uppercase letters, hyphen, digits, on word boundaries): a token
whose code is one of the five `TDR_TYPES` codes produces no diagnostic (its
warning text never occurs), while a token with an unknown code produces
exactly one "unknown TDR type" warning naming the reference per occurrence. -/
theorem C8_cross_reference_warnings (content : String) (t i : String) :
    (validate_cross_references content).1 = [] ∧
    ((t, i) ∈ findRefs content →
      ((tdrTypesLookup t).isSome = true →
        refMsg t i ∉ (validate_cross_references content).2) ∧
      ((tdrTypesLookup t).isSome = false →
        (validate_cross_references content).2.count (refMsg t i) =
          (findRefs content).count (t, i))) := by
  have hlen : ∀ r ∈ findRefs content, r.1.length = 3 :=
    fun r hr => refsAux_mem_len _ _ _ r hr
  have hwarn : (validate_cross_references content).2 =
      (findRefs content).filterMap refWarnFn := rfl
  refine ⟨rfl, fun hmem => ⟨?_, ?_⟩⟩
  · intro hk
    rw [hwarn]
    exact known_not_mem t i (hlen (t, i) hmem) hk _ hlen
  · intro hunk
    rw [hwarn]
    exact count_refWarns t i (hlen (t, i) hmem) hunk _ hlen

/-- C8 witness: in `See ADR-007 and XYZ-007.` the known token `ADR-007`
produces no warning while the unknown token `XYZ-007` produces exactly one. -/
theorem C8_witness :
    (validate_cross_references "See ADR-007 and XYZ-007.").1 = [] ∧
    refMsg "ADR" "007" ∉
      (validate_cross_references "See ADR-007 and XYZ-007.").2 ∧
    (validate_cross_references "See ADR-007 and XYZ-007.").2.count
        (refMsg "XYZ" "007") = 1 := by
  obtain ⟨hnil, hadr⟩ :=
    C8_cross_reference_warnings "See ADR-007 and XYZ-007." "ADR" "007"
  obtain ⟨-, hxyz⟩ :=
    C8_cross_reference_warnings "See ADR-007 and XYZ-007." "XYZ" "007"
  refine ⟨hnil, (hadr (by decide)).1 rfl, ?_⟩
  have hc := (hxyz (by decide)).2 rfl
  rw [hc]
  decide

end TDRValidator

namespace TDRValidator

/-! ### C1: well-formed documents validate cleanly -/

/-- A section is present with non-empty trimmed content. -/
def sectionOk (secs : List (String × String)) (name : String) : Bool :=
  match secs.lookup name with
  | some c => !(pyStrip c == "")
  | none => false

/-- The `ai-context` key is absent or holds a nested mapping. -/
def aiShapeOk (fm : Fm) : Bool :=
  match fm.lookup "ai-context" with
  | none => true
  | some (YVal.dict _) => true
  | some _ => false

lemma missingFieldErrors_nil (fm : Fm)
    (h1 : (fm.lookup "type").isSome = true)
    (h2 : (fm.lookup "title").isSome = true)
    (h3 : (fm.lookup "status").isSome = true)
    (h4 : (fm.lookup "date").isSome = true)
    (h5 : (fm.lookup "decision_owner").isSome = true) :
    missingFieldErrors fm = [] := by
  simp [missingFieldErrors, required_fields, h1, h2, h3, h4, h5]

lemma sectionRequiredErrors_nil :
    ∀ (req : List String) (secs : List (String × String)),
      (∀ name ∈ req, sectionOk secs name = true) →
      sectionRequiredErrors req secs = [] := by
  intro req
  induction req with
  | nil => intro secs _; rfl
  | cons hd tl ih =>
    intro secs h
    have hhd := h hd (by simp)
    unfold sectionOk at hhd
    simp only [sectionRequiredErrors]
    rcases hl : secs.lookup hd with _ | c
    · rw [hl] at hhd; simp at hhd
    · rw [hl] at hhd
      simp only [Bool.not_eq_true'] at hhd
      rw [ih secs fun x hx => h x (by simp [hx])]
      simp [hhd]

lemma ai_errors_nil (fm : Fm) (h : aiShapeOk fm = true) :
    (validate_ai_context fm).1 = [] := by
  unfold aiShapeOk at h
  unfold validate_ai_context
  rcases hl : fm.lookup "ai-context" with _ | v
  · rfl
  · rw [hl] at h
    cases v <;> simp_all

/-- C1 amended: a document whose content is well-formed — valid delimited
header decoding to a nonempty mapping, all required metadata fields present
and valid, declared type one of the five codes, every required section of
that type present with non-empty trimmed content, and additionally whose
`ai-context` entry (if any) is a nested mapping — validates with
`valid = true` and an empty error list.  (The extra `ai-context` condition is
forced: a present non-mapping `ai-context` makes the AI-Context Validator
append an error, failing the claim as stated.) -/
theorem C1_wellformed_valid (ext : Ext) (strict : Bool) (path content : String)
    (fm : Fm) (body : String) (ts ss ow : String) (dv : YVal) (cfg : TdrConfig)
    (hp : parse_frontmatter ext content = (some fm, body, []))
    (hne : fm ≠ [])
    (ht : fm.lookup "type" = some (YVal.str ts))
    (hcfg : tdrTypesLookup (pyStrUpper ts) = some cfg)
    (hti : (fm.lookup "title").isSome = true)
    (hs : fm.lookup "status" = some (YVal.str ss))
    (hsv : VALID_STATUSES.contains (pyStrLower ss) = true)
    (hd : fm.lookup "date" = some dv)
    (hdv : ext.dateOk dv = true)
    (ho : fm.lookup "decision_owner" = some (YVal.str ow))
    (hov : (pyStrip ow == "") = false)
    (hai : aiShapeOk fm = true)
    (hsec : ∀ name ∈ cfg.required_sections,
      sectionOk (parse_sections body) name = true) :
    ((validate_file ext strict (.content content) path).map Result.valid =
      .ok true) ∧
    ((validate_file ext strict (.content content) path).map Result.errors =
      .ok []) := by
  have hfmne : fm.isEmpty = false := by
    cases fm
    · exact absurd rfl hne
    · rfl
  have htc : typeCheck fm = .ok [] := by
    simp [typeCheck, ht, hcfg]
  have hsc : statusCheck fm = .ok [] := by
    have hsv' : pyStrLower ss ∈ VALID_STATUSES := by simpa using hsv
    simp [statusCheck, hs, hsv']
  have hdc : dateCheck ext fm = [] := by
    simp [dateCheck, hd, hdv]
  have hoc : ownerCheck fm = [] := by
    simp [ownerCheck, ho, hov]
  have hvf : validate_frontmatter ext fm =
      .ok ([], fieldShapeWarn fm "tdr_id" ++ fieldShapeWarn fm "supersedes" ++
        reviewersCheck fm) := by
    unfold validate_frontmatter
    rw [htc, hsc,
      missingFieldErrors_nil fm (by rw [ht]; rfl) hti (by rw [hs]; rfl)
        (by rw [hd]; rfl) (by rw [ho]; rfl),
      hdc, hoc]
    rfl
  have hvs : validate_sections strict (YVal.str ts) (parse_sections body) =
      .ok ([], if strict then
        strictSectionWarns (pyStrUpper ts) cfg (parse_sections body)
      else []) := by
    simp only [validate_sections, hcfg, sectionRequiredErrors_nil _ _ hsec]
  obtain ⟨w4, hac⟩ : ∃ w, validate_ai_context fm = ([], w) := by
    refine ⟨(validate_ai_context fm).2, ?_⟩
    have heta : validate_ai_context fm =
        ((validate_ai_context fm).1, (validate_ai_context fm).2) := rfl
    rw [heta, ai_errors_nil fm hai]
  have hxr : validate_cross_references body =
      ([], (findRefs body).filterMap refWarnFn) := rfl
  refine ⟨?_, ?_⟩ <;>
    simp [validate_file, hp, hfmne, hvf, ht, hvs, hac, hxr, create_result,
      Except.map]

/-- The concrete frontmatter of the C1 counterexample: every required field
valid, plus a non-mapping `ai-context` entry. -/
def fmC1 : Fm :=
  [("type", YVal.str "ADR"), ("title", YVal.str "T"),
   ("status", YVal.str "accepted"), ("date", YVal.str "2025-01-01"),
   ("decision_owner", YVal.str "Jo"), ("ai-context", YVal.int 1)]

def extC1 : Ext :=
  { decode := fun _ => DecodeOutcome.value (some fmC1), dateOk := fun _ => true }

def contentC1 : String :=
  "---\nx: 1\n---\n## Status\nok\n## Context\nc\n## Decision\nd\n## Consequences\nq"

/-- C1 counterexample: a document satisfying every well-formedness condition
of the claim (valid delimited header, all required metadata fields present
and valid, type `ADR`, all four required sections present and non-empty)
whose result nevertheless has `valid = false` with a non-empty error list,
because its `ai-context` entry is not a mapping. -/
theorem C1_counterexample :
    fmC1.lookup "type" = some (YVal.str "ADR") ∧
    (tdrTypesLookup (pyStrUpper "ADR")).isSome = true ∧
    (fmC1.lookup "title").isSome = true ∧
    fmC1.lookup "status" = some (YVal.str "accepted") ∧
    VALID_STATUSES.contains (pyStrLower "accepted") = true ∧
    fmC1.lookup "date" = some (YVal.str "2025-01-01") ∧
    extC1.dateOk (YVal.str "2025-01-01") = true ∧
    fmC1.lookup "decision_owner" = some (YVal.str "Jo") ∧
    (pyStrip "Jo" == "") = false ∧
    parse_frontmatter extC1 contentC1 =
      (some fmC1,
       "## Status\nok\n## Context\nc\n## Decision\nd\n## Consequences\nq",
       []) ∧
    (∀ name ∈ ["Status", "Context", "Decision", "Consequences"],
      sectionOk (parse_sections
        "## Status\nok\n## Context\nc\n## Decision\nd\n## Consequences\nq")
        name = true) ∧
    (validate_file extC1 false (.content contentC1) "doc.md").map Result.valid =
      .ok false ∧
    (validate_file extC1 false (.content contentC1) "doc.md").map Result.errors =
      .ok ["ai-context must be a dictionary"] :=
  ⟨rfl, rfl, rfl, rfl, rfl, rfl, rfl, rfl, rfl, rfl, by decide, rfl, rfl⟩

/-- The C1 witness data: as `fmC1` but with a mapping-valued `ai-context`. -/
def fmC1W : Fm :=
  [("type", YVal.str "ADR"), ("title", YVal.str "T"),
   ("status", YVal.str "accepted"), ("date", YVal.str "2025-01-01"),
   ("decision_owner", YVal.str "Jo"),
   ("ai-context", YVal.dict [("keywords", YVal.list [YVal.str "k"])])]

def extC1W : Ext :=
  { decode := fun _ => DecodeOutcome.value (some fmC1W), dateOk := fun _ => true }

/-- C1 witness: the amended statement at a concrete well-formed document. -/
theorem C1_witness :
    ((validate_file extC1W false (.content contentC1) "doc.md").map
      Result.valid = .ok true) ∧
    ((validate_file extC1W false (.content contentC1) "doc.md").map
      Result.errors = .ok []) :=
  C1_wellformed_valid extC1W false "doc.md" contentC1 fmC1W
    "## Status\nok\n## Context\nc\n## Decision\nd\n## Consequences\nq"
    "ADR" "accepted" "Jo" (YVal.str "2025-01-01")
    { name := "Architectural Decision Record"
      required_sections := ["Status", "Context", "Decision", "Consequences"]
      optional_sections := ["Rationale", "Alternatives Considered", "Implementation",
        "Assumptions", "Constraints", "Related Decisions"] }
    rfl (by simp [fmC1W]) rfl rfl rfl rfl rfl rfl rfl rfl rfl rfl (by decide)

end TDRValidator
